import Mathlib

/-!
Verification of the Notice2Do core (`src/app.py`): the calendar encoder
`to_ics` and the credential gate at the top of `call_ai`, shallowly embedded
in Lean.  Strings are modelled as Lean `String` (lists of Unicode scalar
values); the Python library behaviours that the code relies on
(`str.strip`, `str.lower`, `str.replace`, `datetime.strptime`,
`datetime.strftime`, decimal rendering of `int`) are modelled over the
ASCII fragment that the code's fixed patterns and tokens live in.
-/

set_option maxRecDepth 8000

namespace Notice2Do

/-- The code points CPython treats as whitespace (`Py_UNICODE_ISSPACE`):
this one set underlies both `str.strip`/`str.isspace` and the `\s` class of
a compiled `re` pattern over `str`.  It is `\t \n \v \f \r`, the C0
separators `U+001C`–`U+001F`, space, `U+0085`, `U+00A0`, `U+1680`,
`U+2000`–`U+200A`, `U+2028`, `U+2029`, `U+202F`, `U+205F` and `U+3000`. -/
def pyWhitespace : List Nat :=
  [9, 10, 11, 12, 13, 28, 29, 30, 31, 32, 133, 160, 5760,
   8192, 8193, 8194, 8195, 8196, 8197, 8198, 8199, 8200, 8201, 8202,
   8232, 8233, 8239, 8287, 12288]

/-- Membership in Python's whitespace class. -/
def isPySpace (c : Char) : Bool := pyWhitespace.contains c.toNat

/-- The decade bases of the Unicode `Nd` (decimal digit) category: every
`Nd` character sits in a run of ten code points valued `0..9` from one of
these bases.  `re`'s `\d` over `str` matches exactly `Nd`, and `int()`
converts each such digit by its positional value.  Extracted from the
`unicodedata` tables of the CPython this application runs under. -/
def ndBases : List Nat :=
  [0x30, 0x660, 0x6f0, 0x7c0, 0x966, 0x9e6, 0xa66, 0xae6, 0xb66, 0xbe6,
   0xc66, 0xce6, 0xd66, 0xde6, 0xe50, 0xed0, 0xf20, 0x1040, 0x1090, 0x17e0,
   0x1810, 0x1946, 0x19d0, 0x1a80, 0x1a90, 0x1b50, 0x1bb0, 0x1c40, 0x1c50,
   0xa620, 0xa8d0, 0xa900, 0xa9d0, 0xa9f0, 0xaa50, 0xabf0, 0xff10, 0x104a0,
   0x10d30, 0x11066, 0x110f0, 0x11136, 0x111d0, 0x112f0, 0x11450, 0x114d0,
   0x11650, 0x116c0, 0x11730, 0x118e0, 0x11950, 0x11c50, 0x11d50, 0x11da0,
   0x16a60, 0x16ac0, 0x16b50, 0x1d7ce, 0x1d7d8, 0x1d7e2, 0x1d7ec, 0x1d7f6,
   0x1e140, 0x1e2f0, 0x1e950, 0x1fbf0]

/-- The decimal value of a character under `\d`/`int()`: `some v` when the
character is a Unicode decimal digit of value `v`, `none` otherwise. -/
def pyDigitVal (c : Char) : Option Nat :=
  ndBases.findSome? (fun b => if b ≤ c.toNat && c.toNat < b + 10 then some (c.toNat - b) else none)

/-- Whether a character matches the `\d` class of a `str` pattern. -/
def isPyDigit (c : Char) : Bool := (pyDigitVal c).isSome

/-- Model of Python `str.strip()`: drop whitespace from both ends. -/
def pyStrip (s : String) : String :=
  ⟨((s.data.dropWhile isPySpace).reverse.dropWhile isPySpace).reverse⟩

/-- Model of Python `str.lower()` on the ASCII letters (the only characters
that can make a string compare equal to the ASCII tokens "null"/"none"). -/
def pyLower (s : String) : String :=
  ⟨s.data.map Char.toLower⟩

/-- Model of `due.replace("T", " ")`: every capital `T` becomes a space. -/
def replaceT (s : String) : String :=
  ⟨s.data.map (fun c => if c = 'T' then ' ' else c)⟩

/-- Model of `.replace("\n", " ")`: every newline becomes a space. -/
def replaceNl (s : String) : String :=
  ⟨s.data.map (fun c => if c = '\n' then ' ' else c)⟩

/-- Numeric value of an ASCII decimal digit.  Regex character classes such
as `[0-9]` or literal digits in a pattern are ASCII-only even in Unicode
mode; only the `\d` class is Unicode-aware. -/
def digitVal (c : Char) : Nat := c.toNat - 48

/-! ### Model of `datetime.strptime(due, "%Y-%m-%d %H:%M")`

CPython's `_strptime` compiles the format to the regular expression
`(?P<Y>\d\d\d\d)-(?P<m>1[0-2]|0[1-9]|[1-9])-(?P<d>3[0-1]|[1-2]\d|0[1-9]|[1-9]| [1-9])\s+(?P<H>2[0-3]|[0-1]\d|\d):(?P<M>[0-5]\d|\d)`
(note the final `%d` alternative: an ASCII space followed by a nonzero
ASCII digit, kept for ANSI-C `%c` compatibility), anchored at the start,
and raises `ValueError` unless the match consumes the whole string; each
captured group is then converted with `int()` and the `datetime`
constructor validates the day against the month length and rejects year 0.
The functions below reproduce that regex — alternatives in source order
with full backtracking, `\d` matching any Unicode decimal digit, literal
digits and bracket classes matching ASCII only, `\s` matching Python's
whitespace class — and the positional `int()` value of each group. -/

/-- `%Y`: `\d\d\d\d`, four Unicode decimal digits. -/
def matchY : List Char → Option (Nat × List Char)
  | c1 :: c2 :: c3 :: c4 :: rest =>
    match pyDigitVal c1, pyDigitVal c2, pyDigitVal c3, pyDigitVal c4 with
    | some v1, some v2, some v3, some v4 =>
      some (v1 * 1000 + v2 * 100 + v3 * 10 + v4, rest)
    | _, _, _, _ => none
  | _ => none

/-- `%m` = `1[0-2]|0[1-9]|[1-9]` (all ASCII): candidates in regex order. -/
def altsM : List Char → List (Nat × List Char)
  | c1 :: c2 :: rest =>
    (if c1 = '1' && (c2 = '0' || c2 = '1' || c2 = '2') then [(10 + digitVal c2, rest)] else []) ++
    (if c1 = '0' && c2.isDigit && c2 ≠ '0' then [(digitVal c2, rest)] else []) ++
    (if c1.isDigit && c1 ≠ '0' then [(digitVal c1, c2 :: rest)] else [])
  | [c1] => if c1.isDigit && c1 ≠ '0' then [(digitVal c1, [])] else []
  | [] => []

/-- `%d` = `3[0-1]|[1-2]\d|0[1-9]|[1-9]| [1-9]`: candidates in regex order;
the second character of `[1-2]\d` may be any Unicode digit, and the last
alternative is a literal ASCII space followed by an ASCII nonzero digit. -/
def altsD : List Char → List (Nat × List Char)
  | c1 :: c2 :: rest =>
    (if c1 = '3' && (c2 = '0' || c2 = '1') then [(30 + digitVal c2, rest)] else []) ++
    (if c1 = '1' || c1 = '2' then
      match pyDigitVal c2 with
      | some v2 => [(digitVal c1 * 10 + v2, rest)]
      | none => []
     else []) ++
    (if c1 = '0' && c2.isDigit && c2 ≠ '0' then [(digitVal c2, rest)] else []) ++
    (if c1.isDigit && c1 ≠ '0' then [(digitVal c1, c2 :: rest)] else []) ++
    (if c1 = ' ' && c2.isDigit && c2 ≠ '0' then [(digitVal c2, rest)] else [])
  | [c1] => if c1.isDigit && c1 ≠ '0' then [(digitVal c1, [])] else []
  | [] => []

/-- `%H` = `2[0-3]|[0-1]\d|\d`: candidates in regex order; the `\d`
positions may be any Unicode digit. -/
def altsH : List Char → List (Nat × List Char)
  | c1 :: c2 :: rest =>
    (if c1 = '2' && (c2 = '0' || c2 = '1' || c2 = '2' || c2 = '3') then [(20 + digitVal c2, rest)] else []) ++
    (if c1 = '0' || c1 = '1' then
      match pyDigitVal c2 with
      | some v2 => [(digitVal c1 * 10 + v2, rest)]
      | none => []
     else []) ++
    (match pyDigitVal c1 with
     | some v1 => [(v1, c2 :: rest)]
     | none => [])
  | [c1] =>
    match pyDigitVal c1 with
    | some v1 => [(v1, [])]
    | none => []
  | [] => []

/-- `%M` = `[0-5]\d|\d`: candidates in regex order; the `\d` positions may
be any Unicode digit. -/
def altsMin : List Char → List (Nat × List Char)
  | c1 :: c2 :: rest =>
    (if c1 = '0' || c1 = '1' || c1 = '2' || c1 = '3' || c1 = '4' || c1 = '5' then
      match pyDigitVal c2 with
      | some v2 => [(digitVal c1 * 10 + v2, rest)]
      | none => []
     else []) ++
    (match pyDigitVal c1 with
     | some v1 => [(v1, c2 :: rest)]
     | none => [])
  | [c1] =>
    match pyDigitVal c1 with
    | some v1 => [(v1, [])]
    | none => []
  | [] => []

/-- `\s+` (the literal space of the format): one or more whitespace characters. -/
def matchWs : List Char → Option (List Char)
  | c :: rest => if isPySpace c then some (rest.dropWhile isPySpace) else none
  | [] => none

/-- Try candidate matches in order, returning the first that completes. -/
def firstSome {α β : Type} (f : α → Option β) : List α → Option β
  | [] => none
  | a :: as =>
    match f a with
    | some b => some b
    | none => firstSome f as

/-- Final component: the minute match must consume the rest of the string
(`ValueError: unconverted data remains` otherwise). -/
def parseMin (mc : Nat × List Char) : Option Nat :=
  if mc.2 = [] then some mc.1 else none

/-- Parse `H:M` at the end of the string. -/
def parseFromH (r : List Char) : Option (Nat × Nat) :=
  firstSome (fun hc =>
    match hc.2 with
    | ':' :: r2 =>
      match firstSome parseMin (altsMin r2) with
      | some mi => some (hc.1, mi)
      | none => none
    | _ => none) (altsH r)

/-- The full anchored regex match for `"%Y-%m-%d %H:%M"`. -/
def strptimeCore (s : List Char) : Option (Nat × Nat × Nat × Nat × Nat) :=
  match matchY s with
  | none => none
  | some (y, r1) =>
    match r1 with
    | '-' :: r2 =>
      firstSome (fun mc =>
        match mc.2 with
        | '-' :: r4 =>
          firstSome (fun dc =>
            match matchWs dc.2 with
            | none => none
            | some r6 =>
              match parseFromH r6 with
              | none => none
              | some (h, mi) => some (y, mc.1, dc.1, h, mi)) (altsD r4)
        | _ => none) (altsM r2)
    | _ => none

/-- Gregorian leap year, as the `datetime` module computes it. -/
def isLeap (y : Nat) : Bool := (y % 4 = 0 && y % 100 ≠ 0) || y % 400 = 0

/-- Length of a month, as validated by the `datetime` constructor. -/
def daysInMonth (y m : Nat) : Nat :=
  if m = 2 then (if isLeap y then 29 else 28)
  else if m = 4 || m = 6 || m = 9 || m = 11 then 30 else 31

/-- Model of `datetime.strptime(s, "%Y-%m-%d %H:%M")`: `none` exactly when
Python raises `ValueError` (regex mismatch, leftover text, day out of range
for the month, or year 0). -/
def pyStrptime (s : String) : Option (Nat × Nat × Nat × Nat × Nat) :=
  match strptimeCore s.data with
  | none => none
  | some (y, mo, d, h, mi) =>
    if 1 ≤ y && d ≤ daysInMonth y mo then some (y, mo, d, h, mi) else none

/-! ### Decimal rendering (Python `f"{i}"` and zero-padded `strftime` fields) -/

/-- Fuel-driven decimal rendering loop; `fuel > n` always suffices since the
argument is divided by ten each step. -/
def natToDecAux : Nat → Nat → List Char → List Char
  | 0, _, acc => acc
  | fuel + 1, n, acc =>
    let d : Char := Char.ofNat (48 + n % 10)
    if n / 10 = 0 then d :: acc else natToDecAux fuel (n / 10) (d :: acc)

/-- Decimal rendering of a natural number, as Python renders an `int`. -/
def natToDec (n : Nat) : String := ⟨natToDecAux (n + 1) n []⟩

/-- Two-digit zero-padded field (`%m`, `%d`, `%H`, `%M`, `%S`). -/
def pad2 (n : Nat) : String := if n < 10 then "0" ++ natToDec n else natToDec n

/-- Four-digit zero-padded year field (`%Y`).  Zero-padding of `%Y` for
years below 1000 is platform-dependent in CPython (`strftime` is delegated
to the C library; glibc prints the bare year, other platforms pad); the
padded form is modelled here, and no property proved below depends on the
spelling of the stamp — only on equal stamps being equal strings. -/
def pad4 (n : Nat) : String :=
  if n < 10 then "000" ++ natToDec n
  else if n < 100 then "00" ++ natToDec n
  else if n < 1000 then "0" ++ natToDec n
  else natToDec n

/-- `dt.strftime("%Y%m%dT%H%M%S")` for a parsed date-time (seconds are 0). -/
def fmtStamp (y mo d h mi : Nat) : String :=
  pad4 y ++ pad2 mo ++ pad2 d ++ "T" ++ pad2 h ++ pad2 mi ++ "00"

/-! ### The task record and the encoder `to_ics` -/

/-- A task produced by the extractor (`TaskItem` of the spec).  `to_ics`
reads only `task` and `due_local`; `due_local = none` models JSON `null`. -/
structure TaskItem where
  task : String
  due_local : Option String
  priority : String
  source_quote : String
deriving DecidableEq

/-- The skip-token test `due.lower() in ("null", "none", "")`, applied to
the trimmed string. -/
def skipTok (d : String) : Bool :=
  pyLower d == "null" || pyLower d == "none" || pyLower d == ""

/-- `f"notice2do-{i}-{dtstart}@local"`. -/
def uidString (i : Nat) (stamp : String) : String :=
  "notice2do-" ++ natToDec i ++ "-" ++ stamp ++ "@local"

/-- `(t.get("task") or "할 일").replace("\n", " ").strip()`: the empty
description is falsy in Python, so it falls back to the placeholder before
newline collapsing and trimming. -/
def summaryOf (t : TaskItem) : String :=
  pyStrip (replaceNl (if t.task = "" then "할 일" else t.task))

/-- The seven lines appended for one successfully parsed task. -/
def eventBlock (tzid now_utc : String) (i : Nat) (t : TaskItem)
    (y mo d h mi : Nat) : List String :=
  let dtstart := fmtStamp y mo d h mi
  let dtend := fmtStamp y mo d h mi
  ["BEGIN:VEVENT",
   "UID:" ++ uidString i dtstart,
   "DTSTAMP:" ++ now_utc,
   "DTSTART;TZID=" ++ tzid ++ ":" ++ dtstart,
   "DTEND;TZID=" ++ tzid ++ ":" ++ dtend,
   "SUMMARY:" ++ summaryOf t,
   "END:VEVENT"]

/-- One iteration of the `for i, t in enumerate(tasks)` loop body: the lines
this task contributes (empty when the task is skipped). -/
def eventLines (tzid now_utc : String) (i : Nat) (t : TaskItem) : List String :=
  match t.due_local with
  | none => []
  | some due0 =>
    let due1 := pyStrip due0
    if skipTok due1 then []
    else
      match pyStrptime (replaceT due1) with
      | none => []
      | some (y, mo, d, h, mi) => eventBlock tzid now_utc i t y mo d h mi

/-- The loop over tasks, carrying the zero-based index. -/
def eventsFrom (tzid now_utc : String) : Nat → List TaskItem → List String
  | _, [] => []
  | i, t :: ts => eventLines tzid now_utc i t ++ eventsFrom tzid now_utc (i + 1) ts

/-- The fixed calendar header lines. -/
def calHeader : List String :=
  ["BEGIN:VCALENDAR", "VERSION:2.0", "PRODID:-//Notice2Do//KR//EN", "CALSCALE:GREGORIAN"]

/-- All lines of the calendar document, in order. -/
def to_icsLines (tasks : List TaskItem) (tzid now_utc : String) : List String :=
  calHeader ++ eventsFrom tzid now_utc 0 tasks ++ ["END:VCALENDAR"]

/-- `"\n".join(lines)`. -/
def joinNl : List String → String
  | [] => ""
  | [l] => l
  | l :: l2 :: ls => l ++ "\n" ++ joinNl (l2 :: ls)

/-- `to_ics(tasks, tzid)` from `src/app.py`, with the shared generated-at
timestamp `now_utc` (the value of `datetime.now(timezone.utc).strftime(...)`)
made an explicit argument. -/
def to_ics (tasks : List TaskItem) (tzid now_utc : String) : String :=
  joinNl (to_icsLines tasks tzid now_utc)

/-! ### Exception-level model of the encoder (for the never-throws claim)

`to_icsE` re-runs the encoder in an `Except` monad in which the single
fallible operation of the loop body — `datetime.strptime` — may raise
`ValueError`, and the `try/except ValueError: continue` of the source is the
explicit handler.  Proving `to_icsE = .ok (to_ics …)` shows every raised
error is caught. -/

/-- Equality of `Except` results is decidable when both sides are. -/
instance exceptDecEq {ε α : Type} [DecidableEq ε] [DecidableEq α] :
    DecidableEq (Except ε α) := by
  intro a b
  cases a <;> cases b
  case error.error e1 e2 =>
    exact match decEq e1 e2 with
      | isTrue h => isTrue (by rw [h])
      | isFalse h => isFalse (by intro hc; cases hc; exact h rfl)
  case ok.ok v1 v2 =>
    exact match decEq v1 v2 with
      | isTrue h => isTrue (by rw [h])
      | isFalse h => isFalse (by intro hc; cases hc; exact h rfl)
  case error.ok e v => exact isFalse (by intro hc; cases hc)
  case ok.error v e => exact isFalse (by intro hc; cases hc)

/-- The only exception the `try` block of `to_ics` can raise. -/
inductive PyErr where
  | valueError
deriving DecidableEq

/-- `datetime.strptime` as a fallible operation: raises `ValueError` where
Python does. -/
def pyStrptimeE (s : String) : Except PyErr (Nat × Nat × Nat × Nat × Nat) :=
  match pyStrptime s with
  | none => .error .valueError
  | some v => .ok v

/-- The loop body with the `try/except ValueError: continue` made explicit. -/
def eventLinesE (tzid now_utc : String) (i : Nat) (t : TaskItem) :
    Except PyErr (List String) :=
  match t.due_local with
  | none => .ok []
  | some due0 =>
    let due1 := pyStrip due0
    if skipTok due1 then .ok []
    else
      match pyStrptimeE (replaceT due1) with
      | .error .valueError => .ok []
      | .ok (y, mo, d, h, mi) => .ok (eventBlock tzid now_utc i t y mo d h mi)

/-- The loop in the exception model: an uncaught error aborts the run. -/
def eventsFromE (tzid now_utc : String) : Nat → List TaskItem → Except PyErr (List String)
  | _, [] => .ok []
  | i, t :: ts =>
    match eventLinesE tzid now_utc i t with
    | .error e => .error e
    | .ok ls =>
      match eventsFromE tzid now_utc (i + 1) ts with
      | .error e => .error e
      | .ok rest => .ok (ls ++ rest)

/-- `to_ics` in the exception model. -/
def to_icsE (tasks : List TaskItem) (tzid now_utc : String) : Except PyErr String :=
  match eventsFromE tzid now_utc 0 tasks with
  | .error e => .error e
  | .ok evs => .ok (joinNl (calHeader ++ evs ++ ["END:VCALENDAR"]))

/-! ### The credential gate at the top of `call_ai`

The code reads `api_key = (st.secrets.get("OPENAI_API_KEY") or "").strip()`
and then runs three checks in order, each raising `RuntimeError` (the
`ConfigError` of the spec) with a fixed message; only after all three pass
is the OpenAI client constructed and the network call issued.  The gate
below returns `.error msg` for a raised `RuntimeError` and `.ok api_key`
for control reaching the network call. -/

/-- The offending positions and code points:
`[(i, ord(ch)) for i, ch in enumerate(api_key) if ord(ch) > 127]`. -/
def badPairs (s : String) : List (Nat × Nat) :=
  (s.data.enum.filter (fun p => 127 < p.2.toNat)).map (fun p => (p.1, p.2.toNat))

/-- Message of the missing-credential error. -/
def missingMsg : String := "OPENAI_API_KEY가 없습니다. .streamlit/secrets.toml에 넣어주세요."

/-- Message of the malformed-prefix error. -/
def badStartMsg : String := "OPENAI_API_KEY 형식이 이상합니다. sk-로 시작하는 실제 키를 넣어주세요."

/-- Python `repr` of an `(int, int)` tuple. -/
def renderPair (p : Nat × Nat) : String :=
  "(" ++ natToDec p.1 ++ ", " ++ natToDec p.2 ++ ")"

/-- Python `repr` of a list of `(int, int)` tuples, as an f-string renders it. -/
def renderBad (l : List (Nat × Nat)) : String :=
  "[" ++ String.intercalate ", " (l.map renderPair) ++ "]"

/-- Fixed text before the interpolated `bad[:10]` in the non-ASCII message. -/
def nonAsciiPre : String := "OPENAI_API_KEY에 비ASCII 문자가 섞여 있습니다. 위치/코드: "

/-- Fixed text after the interpolated `bad[:10]` in the non-ASCII message. -/
def nonAsciiPost : String := " (예: 65279는 BOM, 8203은 제로폭 공백)"

/-- The non-ASCII `RuntimeError` message: the credential enters it only
through the first ten `(position, code point)` pairs. -/
def nonAsciiMsg (bad : List (Nat × Nat)) : String :=
  nonAsciiPre ++ renderBad (bad.take 10) ++ nonAsciiPost

/-- `"sk-".isPrefixOf`-style check for `api_key.startswith("sk-")`. -/
def strStarts (p s : String) : Bool := p.data.isPrefixOf s.data

/-- Suffix test on strings, by character list. -/
def strEnds (p s : String) : Bool := p.data.isSuffixOf s.data

/-- The credential validation of `call_ai`, from reading the secret to the
point just before the network call.  `secret` models
`st.secrets.get("OPENAI_API_KEY")` (absent = `none`). -/
def call_ai_gate (secret : Option String) : Except String String :=
  let api_key := pyStrip (secret.getD "")
  if api_key = "" then .error missingMsg
  else
    let bad := badPairs api_key
    if bad.isEmpty then
      if strStarts "sk-" api_key then .ok api_key else .error badStartMsg
    else .error (nonAsciiMsg bad)

/-! ### Spec-side definitions -/

/-- Modelled from the spec's words (claim C1): the exact pattern
`YYYY-MM-DD HH:MM` — four-digit year, two-digit month, two-digit day, a
single space, two-digit hour, two-digit minute, with every component in
range.  This is the pattern the claim says is the only one accepted; it is
compared against the behaviour of `pyStrptime`. -/
def specExactFormat (s : String) : Bool :=
  match s.data with
  | [y1, y2, y3, y4, p1, m1, m2, p2, d1, d2, p3, h1, h2, p4, n1, n2] =>
    y1.isDigit && y2.isDigit && y3.isDigit && y4.isDigit &&
    p1 = '-' && m1.isDigit && m2.isDigit && p2 = '-' &&
    d1.isDigit && d2.isDigit && p3 = ' ' &&
    h1.isDigit && h2.isDigit && p4 = ':' && n1.isDigit && n2.isDigit &&
    (let y := digitVal y1 * 1000 + digitVal y2 * 100 + digitVal y3 * 10 + digitVal y4
     let mo := digitVal m1 * 10 + digitVal m2
     let d := digitVal d1 * 10 + digitVal d2
     let h := digitVal h1 * 10 + digitVal h2
     let mi := digitVal n1 * 10 + digitVal n2
     1 ≤ y && 1 ≤ mo && mo ≤ 12 && 1 ≤ d && d ≤ daysInMonth y mo && h ≤ 23 && mi ≤ 59)
  | _ => false

/-- Whether a task's `due_local` survives every skip test and parses, i.e.
whether the loop emits an event for it. -/
def dueParses (t : TaskItem) : Bool :=
  match t.due_local with
  | none => false
  | some due0 =>
    let due1 := pyStrip due0
    !skipTok due1 && (pyStrptime (replaceT due1)).isSome

/-- The line test used to count event blocks. -/
def isVeventBegin (l : String) : Bool := l == "BEGIN:VEVENT"

/-- The line test used to collect UID lines. -/
def isUidLine (l : String) : Bool := strStarts "UID:" l

/-- Parse-back of a decimal digit list, used to invert `natToDec`. -/
def decVal : List Char → Nat → Nat
  | [], acc => acc
  | c :: cs, acc => decVal cs (acc * 10 + (c.toNat - 48))

/-- The round-trip example task of the spec. -/
def exTask : TaskItem :=
  { task := "Submit\nreport", due_local := some "2025-03-10T09:00",
    priority := "high", source_quote := "" }

end Notice2Do

namespace Notice2Do

/-! ### Concrete evaluation checks

These anonymous examples pin the embedding to the interpreter behaviour of
the source on concrete inputs, including the lenient digit widths of
`strptime` and the skip tokens. -/

example : pyStrptime "2025-03-10 09:00" = some (2025, 3, 10, 9, 0) := by decide
example : call_ai_gate none = .error missingMsg := by decide
example : call_ai_gate (some "  ") = .error missingMsg := by decide
example : call_ai_gate (some "abc") = .error badStartMsg := by decide
example : call_ai_gate (some "sk-xyz") = .ok "sk-xyz" := by decide
example : call_ai_gate (some " sk-xyz ") = .ok "sk-xyz" := by decide
example : call_ai_gate (some "sk-α") = .error (nonAsciiMsg [(3, 945)]) := by decide
example : nonAsciiMsg [(3, 945)] =
    "OPENAI_API_KEY에 비ASCII 문자가 섞여 있습니다. 위치/코드: [(3, 945)] (예: 65279는 BOM, 8203은 제로폭 공백)" := by decide
example : specExactFormat "2025-03-10 09:00" = true := by decide
example : specExactFormat "2025-3-10 09:00" = false := by decide
example : to_icsE [⟨"a", some "bad", "high", ""⟩] "Asia/Seoul" "N" =
    .ok (to_ics [⟨"a", some "bad", "high", ""⟩] "Asia/Seoul" "N") := by decide
example : pyStrptime "2025-3-10 09:00" = some (2025, 3, 10, 9, 0) := by decide
example : pyStrptime "2025/03/10 09:00" = none := by decide
example : pyStrptime "2025-02-30 10:00" = none := by decide
example : pyStrptime "2025-03-10 09:00:00" = none := by decide
example : pyStrptime "2025-13-10 09:00" = none := by decide
example : pyStrptime "2025-03-10  9:5" = some (2025, 3, 10, 9, 5) := by decide
example : pyStrptime "0000-03-10 09:00" = none := by decide
example : pyStrptime "2025-03- 9 09:00" = some (2025, 3, 9, 9, 0) := by decide
example : pyStrptime "2025-03- 0 09:00" = none := by decide
example : pyStrptime "2025-03-10 09:00" = some (2025, 3, 10, 9, 0) := by decide
example : pyStrptime "2025-03-10　09:00" = some (2025, 3, 10, 9, 0) := by decide
example : pyStrptime "2025-03-10\x1c09:00" = some (2025, 3, 10, 9, 0) := by decide
example : pyStrptime "٢٠٢٥-03-10 09:00" = some (2025, 3, 10, 9, 0) := by decide
example : pyStrptime "2025-03-1٢ 09:00" = some (2025, 3, 12, 9, 0) := by decide
example : pyStrptime "2025-03-10 09:0٢" = some (2025, 3, 10, 9, 2) := by decide
example : pyStrptime "2025-03-10 ٢:05" = some (2025, 3, 10, 2, 5) := by decide
example : pyStrptime "2025-03-٩ 09:00" = none := by decide
example : pyStrptime "2025-0٣-10 09:00" = none := by decide
example : pyStrptime "2025-03-10 ٠9:00" = none := by decide
example : pyStrptime "2025-03-10 09:٥٥" = none := by decide
example : pyStrptime "2025-03-10 09:00 " = none := by decide
example : pyStrip " \x1c x \x1c " = "x" := by decide
example : replaceT (pyStrip "  2025-03-10T09:00 ") = "2025-03-10 09:00" := by decide
example : natToDec 0 = "0" := by decide
example : natToDec 2025 = "2025" := by decide
example : fmtStamp 2025 3 10 9 0 = "20250310T090000" := by decide
example :
    to_ics [⟨"Submit\nreport", some "2025-03-10T09:00", "high", ""⟩] "Asia/Seoul" "20250101T000000Z" =
      "BEGIN:VCALENDAR\nVERSION:2.0\nPRODID:-//Notice2Do//KR//EN\nCALSCALE:GREGORIAN\nBEGIN:VEVENT\nUID:notice2do-0-20250310T090000@local\nDTSTAMP:20250101T000000Z\nDTSTART;TZID=Asia/Seoul:20250310T090000\nDTEND;TZID=Asia/Seoul:20250310T090000\nSUMMARY:Submit report\nEND:VEVENT\nEND:VCALENDAR" := by
  decide

/-! ### String and list infrastructure -/

/-- Strings with equal character data are equal. -/
theorem strOfDataEq {s t : String} (h : s.data = t.data) : s = t := by
  cases s; cases t; cases h; rfl

/-- A list is a prefix of itself followed by anything. -/
theorem isPrefixOf_append_self (l t : List Char) : l.isPrefixOf (l ++ t) = true := by
  induction l with
  | nil => simp [List.isPrefixOf]
  | cons c cs ih => simp [List.isPrefixOf, ih]

/-- A list is a suffix of anything followed by itself. -/
theorem isSuffixOf_append_self (l t : List Char) : l.isSuffixOf (t ++ l) = true := by
  unfold List.isSuffixOf
  rw [List.reverse_append]
  exact isPrefixOf_append_self _ _

/-- `strStarts` holds of a string extended on the right. -/
theorem strStarts_append_self (p r : String) : strStarts p (p ++ r) = true := by
  unfold strStarts
  rw [String.data_append]
  exact isPrefixOf_append_self _ _

/-- Unfolding equation for `joinNl` on a list with at least two elements. -/
theorem joinNl_cons (l : String) (ls : List String) (h : ls ≠ []) :
    joinNl (l :: ls) = l ++ "\n" ++ joinNl ls := by
  cases ls with
  | nil => exact absurd rfl h
  | cons l2 ls2 => rfl

/-- The joined document starts with the character data of its first line. -/
theorem joinNl_data_cons (a : String) (ls : List String) :
    ∃ u, (joinNl (a :: ls)).data = a.data ++ u := by
  cases ls with
  | nil => exact ⟨[], (List.append_nil a.data).symm⟩
  | cons l2 ls2 =>
    refine ⟨"\n".data ++ (joinNl (l2 :: ls2)).data, ?_⟩
    rw [joinNl_cons a (l2 :: ls2) (by simp), String.data_append, String.data_append,
      List.append_assoc]

/-- The joined document ends with the character data of its last line. -/
theorem joinNl_data_concat (ls : List String) (a : String) :
    ∃ u, (joinNl (ls ++ [a])).data = u ++ a.data := by
  induction ls with
  | nil => exact ⟨[], (List.nil_append a.data).symm⟩
  | cons x ls2 ih =>
    obtain ⟨u, hu⟩ := ih
    refine ⟨x.data ++ '\n' :: u, ?_⟩
    have hne : ls2 ++ [a] ≠ [] := by
      intro hc
      exact absurd (congrArg List.length hc) (by simp)
    rw [List.cons_append, joinNl_cons x (ls2 ++ [a]) hne]
    rw [String.data_append, String.data_append, hu]
    simp

/-- Character-level head of a string extended on the right. -/
theorem data_head_append (p r : String) (c : Char) (cs : List Char) (hp : p.data = c :: cs) :
    ((p ++ r).data).head? = some c := by
  rw [String.data_append, hp]
  rfl

/-- Strings whose data start with different characters are different. -/
theorem ne_of_head {a b : String} {ca cb : Char} (ha : a.data.head? = some ca)
    (hb : b.data.head? = some cb) (hne : ca ≠ cb) : a ≠ b := by
  intro h
  rw [h] at ha
  rw [ha] at hb
  exact hne (Option.some.inj hb)

/-! ### Decimal rendering lemmas -/

/-- `Char.ofNat` of a digit code point has that code point. -/
theorem charOfNat_digit_toNat (r : Nat) (h : r < 10) : (Char.ofNat (48 + r)).toNat = 48 + r := by
  interval_cases r <;> decide

/-- Characters produced for digits are decimal digits. -/
theorem charOfNat_digit_isDigit (r : Nat) (h : r < 10) : (Char.ofNat (48 + r)).isDigit = true := by
  interval_cases r <;> decide

/-- `decVal` inverts the rendering loop: reading the produced digits back
left-to-right recovers the argument (with the accumulator shifted by a
power of ten). -/
theorem decVal_natToDecAux (fuel : Nat) :
    ∀ n acc k, n < fuel →
      ∃ P, decVal (natToDecAux fuel n acc) k = decVal acc (k * P + n) := by
  induction fuel with
  | zero => exact fun n acc k h => absurd h (Nat.not_lt_zero n)
  | succ fuel ih =>
    intro n acc k h
    have hmod : n % 10 < 10 := Nat.mod_lt _ (by norm_num)
    have htn : (Char.ofNat (48 + n % 10)).toNat - 48 = n % 10 := by
      rw [charOfNat_digit_toNat _ hmod]
      omega
    by_cases h10 : n / 10 = 0
    · refine ⟨10, ?_⟩
      have hn : n % 10 = n := by omega
      simp only [natToDecAux, h10, if_pos]
      show decVal acc (k * 10 + ((Char.ofNat (48 + n % 10)).toNat - 48)) = _
      rw [htn, hn]
    · have hpos : 0 < n := by
        rcases Nat.eq_zero_or_pos n with h0 | h0
        · exact absurd (by rw [h0]) h10
        · exact h0
      have hlt : n / 10 < fuel := by
        have h1 : n / 10 < n := Nat.div_lt_self hpos (by norm_num)
        omega
      obtain ⟨P, hP⟩ := ih (n / 10) (Char.ofNat (48 + n % 10) :: acc) k hlt
      refine ⟨P * 10, ?_⟩
      simp only [natToDecAux, h10, ite_false]
      rw [hP]
      show decVal acc ((k * P + n / 10) * 10 + ((Char.ofNat (48 + n % 10)).toNat - 48)) = _
      rw [htn]
      have harg : (k * P + n / 10) * 10 + n % 10 = k * (P * 10) + n := by
        rw [Nat.add_mul, Nat.mul_assoc]
        generalize k * (P * 10) = K
        omega
      rw [harg]

/-- Reading the decimal rendering of `n` back gives `n`. -/
theorem natToDec_val (n : Nat) : decVal (natToDec n).data 0 = n := by
  obtain ⟨P, hP⟩ := decVal_natToDecAux (n + 1) n [] 0 (Nat.lt_succ_self n)
  show decVal (natToDecAux (n + 1) n []) 0 = n
  rw [hP]
  show 0 * P + n = n
  rw [Nat.zero_mul, Nat.zero_add]

/-- Decimal rendering is injective. -/
theorem natToDec_inj {m n : Nat} (h : natToDec m = natToDec n) : m = n := by
  have hm := natToDec_val m
  rw [h, natToDec_val n] at hm
  exact hm.symm

/-- Every character the rendering loop emits is a decimal digit. -/
theorem natToDecAux_digits (fuel : Nat) :
    ∀ n acc, (∀ x ∈ acc, x.isDigit = true) →
      ∀ c ∈ natToDecAux fuel n acc, c.isDigit = true := by
  induction fuel with
  | zero => exact fun n acc hacc c hc => hacc c hc
  | succ fuel ih =>
    intro n acc hacc c hc
    have hmod : n % 10 < 10 := Nat.mod_lt _ (by norm_num)
    have hd := charOfNat_digit_isDigit (n % 10) hmod
    have hacc2 : ∀ x ∈ (Char.ofNat (48 + n % 10) :: acc), x.isDigit = true := by
      intro x hx
      rcases List.mem_cons.mp hx with h1 | h1
      · rw [h1]; exact hd
      · exact hacc x h1
    by_cases h10 : n / 10 = 0
    · simp only [natToDecAux, h10, if_pos] at hc
      exact hacc2 c hc
    · simp only [natToDecAux, h10, if_neg] at hc
      exact ih (n / 10) _ hacc2 c hc

/-- Every character of a rendered natural number is a decimal digit. -/
theorem natToDec_digits (n : Nat) : ∀ c ∈ (natToDec n).data, c.isDigit = true :=
  natToDecAux_digits (n + 1) n [] (fun x hx => absurd hx (List.not_mem_nil x))

/-- The dash delimiter never occurs inside a rendered natural number. -/
theorem dash_notin_natToDec (n : Nat) : '-' ∉ (natToDec n).data := by
  intro h
  have := natToDec_digits n '-' h
  exact absurd this (by decide)

/-- Two dash-free lists followed by a dash-delimited tail split uniquely. -/
theorem append_dash_inj : ∀ (xs : List Char) {ys u v : List Char}, '-' ∉ xs → '-' ∉ ys →
    xs ++ '-' :: u = ys ++ '-' :: v → xs = ys ∧ u = v := by
  intro xs
  induction xs with
  | nil =>
    intro ys u v _ hy h
    cases ys with
    | nil =>
      refine ⟨rfl, ?_⟩
      rw [List.nil_append, List.nil_append] at h
      exact List.cons.inj h |>.2
    | cons b bs =>
      rw [List.nil_append, List.cons_append] at h
      have hb := (List.cons.inj h).1
      exact absurd (List.mem_cons_self b bs) (by rw [← hb] at hy ⊢; exact hy)
  | cons a asl ih =>
    intro ys u v hx hy h
    cases ys with
    | nil =>
      rw [List.nil_append, List.cons_append] at h
      have ha := (List.cons.inj h).1
      exact absurd (List.mem_cons_self a asl) (by rw [ha] at hx ⊢; exact hx)
    | cons b bs =>
      rw [List.cons_append, List.cons_append] at h
      obtain ⟨hab, htail⟩ := List.cons.inj h
      have hx2 : '-' ∉ asl := fun hc => hx (List.mem_cons_of_mem a hc)
      have hy2 : '-' ∉ bs := fun hc => hy (List.mem_cons_of_mem b hc)
      obtain ⟨h1, h2⟩ := ih hx2 hy2 htail
      exact ⟨by rw [hab, h1], h2⟩

/-- Cancelling a common left factor of a string append. -/
theorem strAppend_cancel_left {p a b : String} (h : p ++ a = p ++ b) : a = b := by
  have hd := congrArg String.data h
  rw [String.data_append, String.data_append] at hd
  exact strOfDataEq (List.append_cancel_left hd)

/-- Two UID strings agree only if they carry the same task index. -/
theorem uidString_inj_idx {i j : Nat} {s t : String} (h : uidString i s = uidString j t) :
    i = j := by
  have hd := congrArg String.data h
  unfold uidString at hd
  simp only [String.data_append, List.append_assoc, List.singleton_append] at hd
  have h2 := List.append_cancel_left hd
  obtain ⟨h3, _⟩ := append_dash_inj _ (dash_notin_natToDec i) (dash_notin_natToDec j) h2
  exact natToDec_inj (strOfDataEq h3)

/-- Appending on the right keeps the head character. -/
theorem data_head_append2 (p r : String) (c : Char) (hp : p.data.head? = some c) :
    ((p ++ r).data).head? = some c := by
  rw [String.data_append]
  cases hpd : p.data with
  | nil => rw [hpd] at hp; cases hp
  | cons x xs =>
    rw [hpd] at hp
    rw [List.cons_append]
    exact hp

/-- A string starting with a letter other than `B` is not the line
`BEGIN:VEVENT`. -/
theorem isVeventBegin_false_of_head {s : String} {c : Char} (hs : s.data.head? = some c)
    (hc : c ≠ 'B') : isVeventBegin s = false := by
  unfold isVeventBegin
  rw [beq_eq_false_iff_ne]
  exact ne_of_head hs (show ("BEGIN:VEVENT").data.head? = some 'B' from rfl) hc

/-- A string starting with a letter other than `U` does not start with `UID:`. -/
theorem isUidLine_false_of_head {s : String} {c : Char} (hs : s.data.head? = some c)
    (hc : c ≠ 'U') : isUidLine s = false := by
  unfold isUidLine strStarts
  cases hsd : s.data with
  | nil => rw [hsd] at hs; cases hs
  | cons x xs =>
    rw [hsd] at hs
    have hx : x = c := Option.some.inj hs
    show ('U' == x && List.isPrefixOf ['I', 'D', ':'] xs) = false
    have hux : ('U' == x) = false := by
      rw [beq_eq_false_iff_ne]
      intro he
      exact hc (by rw [← hx, ← he])
    rw [hux, Bool.false_and]

/-- The head character of each templated line of an event block. -/
theorem head_uid_line (i : Nat) (s : String) :
    ("UID:" ++ uidString i s).data.head? = some 'U' :=
  data_head_append2 _ _ 'U' rfl

/-- Head character of a `DTSTAMP:` line. -/
theorem head_dtstamp (now : String) : ("DTSTAMP:" ++ now).data.head? = some 'D' :=
  data_head_append2 _ _ 'D' rfl

/-- Head character of a `DTSTART;TZID=` line. -/
theorem head_dtstart (tzid s : String) :
    ("DTSTART;TZID=" ++ tzid ++ ":" ++ s).data.head? = some 'D' :=
  data_head_append2 _ _ 'D' (data_head_append2 _ _ 'D' (data_head_append2 _ _ 'D' rfl))

/-- Head character of a `DTEND;TZID=` line. -/
theorem head_dtend (tzid s : String) :
    ("DTEND;TZID=" ++ tzid ++ ":" ++ s).data.head? = some 'D' :=
  data_head_append2 _ _ 'D' (data_head_append2 _ _ 'D' (data_head_append2 _ _ 'D' rfl))

/-- Head character of a `SUMMARY:` line. -/
theorem head_summary (s : String) : ("SUMMARY:" ++ s).data.head? = some 'S' :=
  data_head_append2 _ _ 'S' rfl

/-- An event block contains exactly one `BEGIN:VEVENT` line. -/
theorem countP_eventBlock (tzid now : String) (i : Nat) (t : TaskItem) (y mo d h mi : Nat) :
    (eventBlock tzid now i t y mo d h mi).countP isVeventBegin = 1 := by
  have h1 : isVeventBegin "BEGIN:VEVENT" = true := rfl
  have h2 : isVeventBegin ("UID:" ++ uidString i (fmtStamp y mo d h mi)) = false :=
    isVeventBegin_false_of_head (head_uid_line i _) (by decide)
  have h3 : isVeventBegin ("DTSTAMP:" ++ now) = false :=
    isVeventBegin_false_of_head (head_dtstamp now) (by decide)
  have h4 : isVeventBegin ("DTSTART;TZID=" ++ tzid ++ ":" ++ fmtStamp y mo d h mi) = false :=
    isVeventBegin_false_of_head (head_dtstart tzid _) (by decide)
  have h5 : isVeventBegin ("DTEND;TZID=" ++ tzid ++ ":" ++ fmtStamp y mo d h mi) = false :=
    isVeventBegin_false_of_head (head_dtend tzid _) (by decide)
  have h6 : isVeventBegin ("SUMMARY:" ++ summaryOf t) = false :=
    isVeventBegin_false_of_head (head_summary _) (by decide)
  have h7 : isVeventBegin "END:VEVENT" = false := rfl
  simp [eventBlock, List.countP_cons, h1, h2, h3, h4, h5, h6, h7]

/-- The UID line is the only line of an event block starting with `UID:`. -/
theorem filter_uid_eventBlock (tzid now : String) (i : Nat) (t : TaskItem) (y mo d h mi : Nat) :
    (eventBlock tzid now i t y mo d h mi).filter isUidLine =
      ["UID:" ++ uidString i (fmtStamp y mo d h mi)] := by
  have h1 : isUidLine "BEGIN:VEVENT" = false := rfl
  have h2 : isUidLine ("UID:" ++ uidString i (fmtStamp y mo d h mi)) = true := by
    unfold isUidLine
    exact strStarts_append_self "UID:" _
  have h3 : isUidLine ("DTSTAMP:" ++ now) = false :=
    isUidLine_false_of_head (head_dtstamp now) (by decide)
  have h4 : isUidLine ("DTSTART;TZID=" ++ tzid ++ ":" ++ fmtStamp y mo d h mi) = false :=
    isUidLine_false_of_head (head_dtstart tzid _) (by decide)
  have h5 : isUidLine ("DTEND;TZID=" ++ tzid ++ ":" ++ fmtStamp y mo d h mi) = false :=
    isUidLine_false_of_head (head_dtend tzid _) (by decide)
  have h6 : isUidLine ("SUMMARY:" ++ summaryOf t) = false :=
    isUidLine_false_of_head (head_summary _) (by decide)
  have h7 : isUidLine "END:VCALENDAR" = false := rfl
  have h8 : isUidLine "END:VEVENT" = false := rfl
  simp [eventBlock, List.filter_cons, h1, h2, h3, h4, h5, h6, h8]

/-- The lines of one loop iteration contain one `BEGIN:VEVENT` when the task
parses and none otherwise. -/
theorem countP_eventLines (tzid now : String) (i : Nat) (t : TaskItem) :
    (eventLines tzid now i t).countP isVeventBegin = if dueParses t then 1 else 0 := by
  cases hdl : t.due_local with
  | none => simp [eventLines, dueParses, hdl]
  | some due0 =>
    by_cases hskip : skipTok (pyStrip due0)
    · simp [eventLines, dueParses, hdl, hskip]
    · cases hp : pyStrptime (replaceT (pyStrip due0)) with
      | none => simp [eventLines, dueParses, hdl, hskip, hp]
      | some q =>
        obtain ⟨y, mo, d, h, mi⟩ := q
        simp [eventLines, dueParses, hdl, hskip, hp, countP_eventBlock]

/-- Whole-loop version of `countP_eventLines`. -/
theorem countP_eventsFrom (tzid now : String) :
    ∀ (ts : List TaskItem) (n : Nat),
      (eventsFrom tzid now n ts).countP isVeventBegin = ts.countP dueParses := by
  intro ts
  induction ts with
  | nil => intro n; rfl
  | cons t ts ih =>
    intro n
    show (eventLines tzid now n t ++ eventsFrom tzid now (n + 1) ts).countP isVeventBegin = _
    rw [List.countP_append, countP_eventLines, ih, List.countP_cons]
    by_cases hdp : dueParses t <;> simp [hdp, Nat.add_comm]

/-- The UID lines of one loop iteration: empty for a skipped task, the one
indexed UID line otherwise. -/
theorem filter_uid_eventLines (tzid now : String) (i : Nat) (t : TaskItem) :
    (eventLines tzid now i t).filter isUidLine = [] ∨
      ∃ s, (eventLines tzid now i t).filter isUidLine = ["UID:" ++ uidString i s] := by
  cases hdl : t.due_local with
  | none => left; simp [eventLines, hdl]
  | some due0 =>
    by_cases hskip : skipTok (pyStrip due0)
    · left; simp [eventLines, hdl, hskip]
    · cases hp : pyStrptime (replaceT (pyStrip due0)) with
      | none => left; simp [eventLines, hdl, hskip, hp]
      | some q =>
        obtain ⟨y, mo, d, h, mi⟩ := q
        right
        refine ⟨fmtStamp y mo d h mi, ?_⟩
        have hbl : eventLines tzid now i t = eventBlock tzid now i t y mo d h mi := by
          simp [eventLines, hdl, hskip, hp]
        rw [hbl, filter_uid_eventBlock]

/-- Every UID line the loop emits from index `n` on carries an index `≥ n`. -/
theorem uid_mem_eventsFrom (tzid now : String) :
    ∀ (ts : List TaskItem) (n : Nat) (u : String),
      u ∈ (eventsFrom tzid now n ts).filter isUidLine →
      ∃ i s, n ≤ i ∧ u = "UID:" ++ uidString i s := by
  intro ts
  induction ts with
  | nil => intro n u hu; exact absurd hu (by simp [eventsFrom])
  | cons t ts ih =>
    intro n u hu
    have hsplit : eventsFrom tzid now n (t :: ts) =
        eventLines tzid now n t ++ eventsFrom tzid now (n + 1) ts := rfl
    rw [hsplit, List.filter_append, List.mem_append] at hu
    rcases hu with hu | hu
    · rcases filter_uid_eventLines tzid now n t with hf | ⟨s, hf⟩
      · rw [hf] at hu; exact absurd hu (List.not_mem_nil u)
      · rw [hf] at hu
        rcases List.mem_singleton.mp hu with rfl
        exact ⟨n, s, Nat.le_refl n, rfl⟩
    · obtain ⟨i, s, hi, hus⟩ := ih (n + 1) u hu
      exact ⟨i, s, by omega, hus⟩

/-- The UID lines the loop emits are pairwise distinct. -/
theorem nodup_uid_eventsFrom (tzid now : String) :
    ∀ (ts : List TaskItem) (n : Nat),
      ((eventsFrom tzid now n ts).filter isUidLine).Nodup := by
  intro ts
  induction ts with
  | nil => intro n; simp [eventsFrom]
  | cons t ts ih =>
    intro n
    have hsplit : eventsFrom tzid now n (t :: ts) =
        eventLines tzid now n t ++ eventsFrom tzid now (n + 1) ts := rfl
    rw [hsplit, List.filter_append, List.nodup_append]
    refine ⟨?_, ih (n + 1), ?_⟩
    · rcases filter_uid_eventLines tzid now n t with hf | ⟨s, hf⟩ <;> rw [hf] <;> simp
    · intro u hu1 hu2
      rcases filter_uid_eventLines tzid now n t with hf | ⟨s, hf⟩
      · rw [hf] at hu1; exact absurd hu1 (List.not_mem_nil u)
      · rw [hf] at hu1
        rcases List.mem_singleton.mp hu1 with rfl
        obtain ⟨i, s2, hi, hus⟩ := uid_mem_eventsFrom tzid now ts (n + 1) _ hu2
        have := uidString_inj_idx (strAppend_cancel_left hus)
        omega

/-- The loop body with exceptions returns exactly the total model's lines:
the `except ValueError` handler catches the only raised error. -/
theorem eventLinesE_ok (tzid now : String) (i : Nat) (t : TaskItem) :
    eventLinesE tzid now i t = .ok (eventLines tzid now i t) := by
  cases hdl : t.due_local with
  | none => simp [eventLinesE, eventLines, hdl]
  | some due0 =>
    by_cases hskip : skipTok (pyStrip due0)
    · simp [eventLinesE, eventLines, hdl, hskip]
    · cases hp : pyStrptime (replaceT (pyStrip due0)) with
      | none => simp [eventLinesE, eventLines, pyStrptimeE, hdl, hskip, hp]
      | some q =>
        obtain ⟨y, mo, d, h, mi⟩ := q
        simp [eventLinesE, eventLines, pyStrptimeE, hdl, hskip, hp]

/-- The whole loop with exceptions returns exactly the total model's lines. -/
theorem eventsFromE_ok (tzid now : String) :
    ∀ (ts : List TaskItem) (n : Nat),
      eventsFromE tzid now n ts = .ok (eventsFrom tzid now n ts) := by
  intro ts
  induction ts with
  | nil => intro n; rfl
  | cons t ts ih => intro n; simp [eventsFromE, eventsFrom, eventLinesE_ok, ih]

/-- The offending-character list is nonempty exactly when some character of
the trimmed credential has a code point above 127. -/
theorem badPairs_ne_nil_iff (k : String) :
    badPairs k ≠ [] ↔ ∃ c ∈ k.data, 127 < c.toNat := by
  unfold badPairs
  simp only [ne_eq, List.map_eq_nil_iff, List.filter_eq_nil_iff, not_forall]
  constructor
  · rintro ⟨x, hx, hp⟩
    rw [List.mem_enum_iff_getElem?] at hx
    obtain ⟨hlt, hg⟩ := List.getElem?_eq_some.mp hx
    refine ⟨x.2, ?_, by simpa using hp⟩
    rw [← hg]
    exact List.getElem_mem hlt
  · rintro ⟨c, hc, hp⟩
    obtain ⟨i, hi, hgc⟩ := List.mem_iff_getElem.mp hc
    refine ⟨(i, c), ?_, by simpa using hp⟩
    rw [List.mk_mem_enum_iff_getElem?]
    rw [List.getElem?_eq_getElem hi, hgc]

/-- The calendar line list in explicit head-cons form. -/
theorem to_icsLines_cons (tasks : List TaskItem) (tzid now : String) :
    to_icsLines tasks tzid now = "BEGIN:VCALENDAR" ::
      (["VERSION:2.0", "PRODID:-//Notice2Do//KR//EN", "CALSCALE:GREGORIAN"] ++
        eventsFrom tzid now 0 tasks ++ ["END:VCALENDAR"]) := by
  simp [to_icsLines, calHeader]

/-! ### Claim theorems -/

/-- Claim C1, counterexample.  The claim says that any deviation from the
exact two-digit-width pattern `YYYY-MM-DD HH:MM` — including a wrong digit
width — makes `to_ics` skip the task.  The string `2025-3-10 09:00` has a
one-digit month, so it deviates from that pattern (`specExactFormat` is
false on it), yet the encoder emits an event block for it, because
`strptime`'s `%m` directive accepts one-digit months. -/
theorem C1_counterexample :
    specExactFormat (replaceT (pyStrip "2025-3-10 09:00")) = false ∧
    (to_icsLines [⟨"Report", some "2025-3-10 09:00", "mid", ""⟩]
      "Asia/Seoul" "20250101T000000Z").countP isVeventBegin = 1 := by
  decide

/-- Claim C1, amended.  For every task whose `due_local`, after trimming and
rewriting `T` to a space, is rejected by the code's single `strptime`
pattern — which, unlike the claim's exact widths, accepts one- or two-digit
month, day, hour and minute, a space-padded single-digit day (the `%d`
alternative ` [1-9]`), any run of Python whitespace between date and time,
and Unicode decimal digits wherever the pattern has `\d` — the task is
skipped: no event lines are emitted, no other pattern is tried, and no
error is raised (the exception model also returns `ok []`). -/
theorem C1_skip_on_parse_failure (tzid now : String) (i : Nat) (t : TaskItem) (due : String)
    (hdue : t.due_local = some due)
    (hfail : pyStrptime (replaceT (pyStrip due)) = none) :
    eventLines tzid now i t = [] ∧ eventLinesE tzid now i t = .ok [] := by
  have h1 : eventLines tzid now i t = [] := by
    by_cases hskip : skipTok (pyStrip due)
    · simp [eventLines, hdue, hskip]
    · simp [eventLines, hdue, hskip, hfail]
  exact ⟨h1, by rw [eventLinesE_ok, h1]⟩

/-- Claim C1, witness: the spec's own example `2025/03/10 09:00` fails the
pattern and its task is skipped. -/
theorem C1_witness :
    pyStrptime (replaceT (pyStrip "2025/03/10 09:00")) = none ∧
    eventLines "Asia/Seoul" "20250101T000000Z" 0
      { task := "Pay fee", due_local := some "2025/03/10 09:00",
        priority := "low", source_quote := "" } = [] :=
  ⟨by decide,
    (C1_skip_on_parse_failure "Asia/Seoul" "20250101T000000Z" 0
      { task := "Pay fee", due_local := some "2025/03/10 09:00",
        priority := "low", source_quote := "" }
      "2025/03/10 09:00" rfl (by decide)).1⟩

/-- Claim C2.  A credential that is empty after trimming, contains a
character above code point 127, or does not start with `sk-` makes the gate
fail with the corresponding `ConfigError` before the network stage
(`call_ai_gate` never returns `.ok`, the state in which the client is
constructed and the request issued), and the checks fire in the order
presence, then ASCII, then prefix. -/
theorem C2_credential_gate (secret : Option String) :
    (pyStrip (secret.getD "") = "" → call_ai_gate secret = .error missingMsg) ∧
    (pyStrip (secret.getD "") ≠ "" →
      (∃ c ∈ (pyStrip (secret.getD "")).data, 127 < c.toNat) →
      call_ai_gate secret = .error (nonAsciiMsg (badPairs (pyStrip (secret.getD ""))))) ∧
    (pyStrip (secret.getD "") ≠ "" →
      (∀ c ∈ (pyStrip (secret.getD "")).data, c.toNat ≤ 127) →
      strStarts "sk-" (pyStrip (secret.getD "")) = false →
      call_ai_gate secret = .error badStartMsg) ∧
    ((pyStrip (secret.getD "") = "" ∨
      (∃ c ∈ (pyStrip (secret.getD "")).data, 127 < c.toNat) ∨
      strStarts "sk-" (pyStrip (secret.getD "")) = false) →
      ∃ msg, call_ai_gate secret = .error msg) := by
  have hmiss : pyStrip (secret.getD "") = "" → call_ai_gate secret = .error missingMsg := by
    intro h
    simp [call_ai_gate, h]
  have hna : pyStrip (secret.getD "") ≠ "" →
      (∃ c ∈ (pyStrip (secret.getD "")).data, 127 < c.toNat) →
      call_ai_gate secret = .error (nonAsciiMsg (badPairs (pyStrip (secret.getD "")))) := by
    intro h1 h2
    have hbp := (badPairs_ne_nil_iff _).mpr h2
    cases hbp2 : badPairs (pyStrip (secret.getD "")) with
    | nil => exact absurd hbp2 hbp
    | cons a l => simp [call_ai_gate, h1, hbp2]
  have hpre : pyStrip (secret.getD "") ≠ "" →
      (∀ c ∈ (pyStrip (secret.getD "")).data, c.toNat ≤ 127) →
      strStarts "sk-" (pyStrip (secret.getD "")) = false →
      call_ai_gate secret = .error badStartMsg := by
    intro h1 h2 h3
    have hbp : badPairs (pyStrip (secret.getD "")) = [] := by
      by_contra hne
      obtain ⟨c, hc, h127⟩ := (badPairs_ne_nil_iff _).mp hne
      exact absurd h127 (Nat.not_lt.mpr (h2 c hc))
    simp [call_ai_gate, h1, hbp, h3]
  refine ⟨hmiss, hna, hpre, ?_⟩
  rintro (h | h | h)
  · exact ⟨_, hmiss h⟩
  · by_cases hk0 : pyStrip (secret.getD "") = ""
    · exact ⟨_, hmiss hk0⟩
    · exact ⟨_, hna hk0 h⟩
  · by_cases hk0 : pyStrip (secret.getD "") = ""
    · exact ⟨_, hmiss hk0⟩
    · by_cases hasc : ∃ c ∈ (pyStrip (secret.getD "")).data, 127 < c.toNat
      · exact ⟨_, hna hk0 hasc⟩
      · have hall : ∀ c ∈ (pyStrip (secret.getD "")).data, c.toNat ≤ 127 := by
          intro c hc
          exact Nat.not_lt.mp (fun h127 => hasc ⟨c, hc, h127⟩)
        exact ⟨_, hpre hk0 hall h⟩

/-- Claim C2, witness: a blank, a non-ASCII, and a wrong-prefix credential
each fail with the corresponding error; the non-ASCII one also has a wrong
prefix, showing the ASCII check fires first. -/
theorem C2_witness :
    call_ai_gate (some "   ") = .error missingMsg ∧
    call_ai_gate (some "αsk-bad") = .error (nonAsciiMsg (badPairs "αsk-bad")) ∧
    call_ai_gate (some "abc") = .error badStartMsg := by
  refine ⟨(C2_credential_gate (some "   ")).1 (by decide), ?_, ?_⟩
  · exact (C2_credential_gate (some "αsk-bad")).2.1 (by decide) ⟨'α', by decide, by decide⟩
  · exact (C2_credential_gate (some "abc")).2.2.1 (by decide) (by decide) (by decide)

/-- Claim C3.  For every task sequence the document begins with the line
`BEGIN:VCALENDAR`, ends with the line `END:VCALENDAR`, and contains exactly
one `BEGIN:VEVENT` line per task whose `due_local` parses. -/
theorem C3_calendar_shape (tasks : List TaskItem) (tzid now : String) :
    (to_icsLines tasks tzid now).head? = some "BEGIN:VCALENDAR" ∧
    (to_icsLines tasks tzid now).getLast? = some "END:VCALENDAR" ∧
    strStarts "BEGIN:VCALENDAR" (to_ics tasks tzid now) = true ∧
    strEnds "END:VCALENDAR" (to_ics tasks tzid now) = true ∧
    (to_icsLines tasks tzid now).countP isVeventBegin = tasks.countP dueParses := by
  refine ⟨?_, ?_, ?_, ?_, ?_⟩
  · rw [to_icsLines_cons]; rfl
  · show ((calHeader ++ eventsFrom tzid now 0 tasks) ++ ["END:VCALENDAR"]).getLast? = _
    exact List.getLast?_concat _
  · unfold to_ics
    rw [to_icsLines_cons]
    obtain ⟨u, hu⟩ := joinNl_data_cons "BEGIN:VCALENDAR"
      (["VERSION:2.0", "PRODID:-//Notice2Do//KR//EN", "CALSCALE:GREGORIAN"] ++
        eventsFrom tzid now 0 tasks ++ ["END:VCALENDAR"])
    unfold strStarts
    rw [hu]
    exact isPrefixOf_append_self _ _
  · unfold to_ics to_icsLines
    obtain ⟨u, hu⟩ := joinNl_data_concat (calHeader ++ eventsFrom tzid now 0 tasks)
      "END:VCALENDAR"
    unfold strEnds
    rw [hu]
    exact isSuffixOf_append_self _ _
  · unfold to_icsLines
    rw [List.countP_append, List.countP_append, countP_eventsFrom]
    have h1 : calHeader.countP isVeventBegin = 0 := rfl
    have h2 : List.countP isVeventBegin ["END:VCALENDAR"] = 0 := rfl
    rw [h1, h2]
    omega

/-- Claim C4.  The encoder never raises: running `to_ics` in the exception
model, where `strptime` may raise `ValueError`, always returns `ok` with
the total model's output — every malformed date degrades to omission. -/
theorem C4_never_throws (tasks : List TaskItem) (tzid now : String) :
    to_icsE tasks tzid now = .ok (to_ics tasks tzid now) := by
  unfold to_icsE to_ics to_icsLines
  rw [eventsFromE_ok]

/-- Claim C5.  In every emitted event block the `DTSTART` and `DTEND` lines
carry the given zone id and the same stamp; in particular the spec's example
task with `due_local = "2025-03-10T09:00"` yields
`DTSTART;TZID=Asia/Seoul:20250310T090000` and an identical `DTEND`. -/
theorem C5_dtstart_dtend (tzid now : String) (i : Nat) (t : TaskItem)
    (hne : eventLines tzid now i t ≠ []) :
    (∃ stamp, ("DTSTART;TZID=" ++ tzid ++ ":" ++ stamp) ∈ eventLines tzid now i t ∧
        ("DTEND;TZID=" ++ tzid ++ ":" ++ stamp) ∈ eventLines tzid now i t) ∧
    ("DTSTART;TZID=Asia/Seoul:20250310T090000" ∈ eventLines "Asia/Seoul" now 0 exTask ∧
      "DTEND;TZID=Asia/Seoul:20250310T090000" ∈ eventLines "Asia/Seoul" now 0 exTask) := by
  constructor
  · cases hdl : t.due_local with
    | none => exact absurd (by simp [eventLines, hdl]) hne
    | some due0 =>
      by_cases hskip : skipTok (pyStrip due0)
      · exact absurd (by simp [eventLines, hdl, hskip]) hne
      · cases hp : pyStrptime (replaceT (pyStrip due0)) with
        | none => exact absurd (by simp [eventLines, hdl, hskip, hp]) hne
        | some q =>
          obtain ⟨y, mo, d, h, mi⟩ := q
          have hbl : eventLines tzid now i t = eventBlock tzid now i t y mo d h mi := by
            simp [eventLines, hdl, hskip, hp]
          rw [hbl]
          refine ⟨fmtStamp y mo d h mi, ?_, ?_⟩ <;> simp [eventBlock]
  · have hbl : eventLines "Asia/Seoul" now 0 exTask =
        ["BEGIN:VEVENT", "UID:notice2do-0-20250310T090000@local", "DTSTAMP:" ++ now,
          "DTSTART;TZID=Asia/Seoul:20250310T090000", "DTEND;TZID=Asia/Seoul:20250310T090000",
          "SUMMARY:Submit report", "END:VEVENT"] := rfl
    rw [hbl]
    constructor
    · exact List.Mem.tail _ (List.Mem.tail _ (List.Mem.tail _ (List.Mem.head _)))
    · exact List.Mem.tail _ (List.Mem.tail _ (List.Mem.tail _ (List.Mem.tail _
        (List.Mem.head _))))

/-- Claim C5, witness: the example task emits a block, and its `DTSTART` and
`DTEND` share one stamp. -/
theorem C5_witness :
    ∃ stamp,
      ("DTSTART;TZID=" ++ "Asia/Seoul" ++ ":" ++ stamp) ∈
        eventLines "Asia/Seoul" "20250101T000000Z" 0 exTask ∧
      ("DTEND;TZID=" ++ "Asia/Seoul" ++ ":" ++ stamp) ∈
        eventLines "Asia/Seoul" "20250101T000000Z" 0 exTask :=
  (C5_dtstart_dtend "Asia/Seoul" "20250101T000000Z" 0 exTask (by decide)).1

/-- Claim C6.  A task whose `due_local` is null, or whose trimmed value is
(case-insensitively) empty, `null` or `none`, is skipped with no event. -/
theorem C6_null_skip (tzid now : String) (i : Nat) (t : TaskItem) :
    (t.due_local = none → eventLines tzid now i t = []) ∧
    (∀ s, t.due_local = some s →
      (pyLower (pyStrip s) = "" ∨ pyLower (pyStrip s) = "null" ∨
        pyLower (pyStrip s) = "none") →
      eventLines tzid now i t = []) := by
  constructor
  · intro h
    simp [eventLines, h]
  · intro s hs hcase
    have hskip : skipTok (pyStrip s) = true := by
      rcases hcase with h | h | h <;> simp [skipTok, h]
    simp [eventLines, hs, hskip]

/-- Claim C6, witness: a null due date and the string `" NULL "` are both
skipped. -/
theorem C6_witness :
    eventLines "Asia/Seoul" "20250101T000000Z" 0
      { task := "buy", due_local := none, priority := "low", source_quote := "" } = [] ∧
    eventLines "Asia/Seoul" "20250101T000000Z" 1
      { task := "buy", due_local := some " NULL ", priority := "low",
        source_quote := "" } = [] :=
  ⟨(C6_null_skip "Asia/Seoul" "20250101T000000Z" 0 _).1 rfl,
    (C6_null_skip "Asia/Seoul" "20250101T000000Z" 1 _).2 " NULL " rfl
      (Or.inr (Or.inl (by decide)))⟩

/-- Claim C7.  The `SUMMARY` line of every emitted block is the task text
with newlines collapsed to spaces and ends trimmed, or the placeholder
`할 일` when the task text is empty; in particular `"Submit\nreport"` gives
`SUMMARY:Submit report`. -/
theorem C7_summary (tzid now : String) (i : Nat) (t : TaskItem) :
    (eventLines tzid now i t ≠ [] →
      (t.task ≠ "" →
        ("SUMMARY:" ++ pyStrip (replaceNl t.task)) ∈ eventLines tzid now i t) ∧
      (t.task = "" → "SUMMARY:할 일" ∈ eventLines tzid now i t)) ∧
    "SUMMARY:Submit report" ∈
      eventLines tzid now i
        { task := "Submit\nreport", due_local := some "2025-03-10 09:00",
          priority := "high", source_quote := "" } := by
  constructor
  · intro hne
    cases hdl : t.due_local with
    | none => exact absurd (by simp [eventLines, hdl]) hne
    | some due0 =>
      by_cases hskip : skipTok (pyStrip due0)
      · exact absurd (by simp [eventLines, hdl, hskip]) hne
      · cases hp : pyStrptime (replaceT (pyStrip due0)) with
        | none => exact absurd (by simp [eventLines, hdl, hskip, hp]) hne
        | some q =>
          obtain ⟨y, mo, d, h, mi⟩ := q
          have hbl : eventLines tzid now i t = eventBlock tzid now i t y mo d h mi := by
            simp [eventLines, hdl, hskip, hp]
          rw [hbl]
          constructor
          · intro hta
            have hsum : summaryOf t = pyStrip (replaceNl t.task) := by
              unfold summaryOf
              rw [if_neg hta]
            rw [← hsum]
            simp [eventBlock]
          · intro hta
            have hsum : summaryOf t = "할 일" := by
              unfold summaryOf
              rw [if_pos hta]
              decide
            have hrw : ("SUMMARY:할 일" : String) = "SUMMARY:" ++ summaryOf t := by
              rw [hsum]
              decide
            rw [hrw]
            simp [eventBlock]
  · have hbl : eventLines tzid now i
        { task := "Submit\nreport", due_local := some "2025-03-10 09:00",
          priority := "high", source_quote := "" } =
        eventBlock tzid now i
          { task := "Submit\nreport", due_local := some "2025-03-10 09:00",
            priority := "high", source_quote := "" } 2025 3 10 9 0 := rfl
    rw [hbl]
    have hsum : summaryOf
        { task := "Submit\nreport", due_local := some "2025-03-10 09:00",
          priority := "high", source_quote := "" } = "Submit report" := by decide
    have hrw : ("SUMMARY:Submit report" : String) = "SUMMARY:" ++ summaryOf
        { task := "Submit\nreport", due_local := some "2025-03-10 09:00",
          priority := "high", source_quote := "" } := by
      rw [hsum]
      decide
    rw [hrw]
    simp [eventBlock]

/-- Claim C7, witness: a padded multi-space description keeps its internal
spacing but is trimmed at the ends in the emitted `SUMMARY` line. -/
theorem C7_witness :
    ("SUMMARY:" ++ pyStrip (replaceNl "  Submit the  form ")) ∈
      eventLines "Asia/Seoul" "20250101T000000Z" 2
        { task := "  Submit the  form ", due_local := some "2025-03-10 09:00",
          priority := "mid", source_quote := "" } :=
  ((C7_summary "Asia/Seoul" "20250101T000000Z" 2 _).1 (by decide)).1 (by decide)

/-- Claim C8.  Within one document all UID lines are pairwise distinct: each
UID embeds the task's zero-based index, and `uidString` is injective in the
index, so even tasks sharing a `due_local` get distinct UIDs. -/
theorem C8_uid_nodup (tasks : List TaskItem) (tzid now : String) :
    ((to_icsLines tasks tzid now).filter isUidLine).Nodup := by
  unfold to_icsLines
  rw [List.filter_append, List.filter_append]
  have h1 : calHeader.filter isUidLine = [] := rfl
  have h2 : List.filter isUidLine ["END:VCALENDAR"] = [] := rfl
  rw [h1, h2, List.nil_append, List.append_nil]
  exact nodup_uid_eventsFrom tzid now tasks 0

/-- Claim C9.  The encoder is deterministic given the generated-at instant:
equal task lists, zone ids and timestamps give byte-identical output. -/
theorem C9_deterministic (ts1 ts2 : List TaskItem) (z1 z2 n1 n2 : String)
    (ht : ts1 = ts2) (hz : z1 = z2) (hn : n1 = n2) :
    to_ics ts1 z1 n1 = to_ics ts2 z2 n2 := by
  rw [ht, hz, hn]

/-- Claim C9, witness: two identical runs agree. -/
theorem C9_witness :
    to_ics [⟨"a", some "2025-03-10 09:00", "high", ""⟩] "Asia/Seoul" "20250101T000000Z" =
      to_ics [⟨"a", some "2025-03-10 09:00", "high", ""⟩] "Asia/Seoul" "20250101T000000Z" :=
  C9_deterministic _ _ _ _ _ _ rfl rfl rfl

/-- Claim C10.  When the trimmed credential has non-ASCII characters, the
gate fails with the non-ASCII message; that message is the fixed Korean text
around the rendering of only the first ten `(position, code point)` pairs
(`min 10` of however many there are), and it depends on the credential only
through those pairs: any credential with the same offending pairs produces
the identical message, so the credential's characters themselves never
reach the message. -/
theorem C10_nonascii_message (secret : Option String)
    (h : badPairs (pyStrip (secret.getD "")) ≠ []) :
    call_ai_gate secret = .error (nonAsciiMsg (badPairs (pyStrip (secret.getD "")))) ∧
    nonAsciiMsg (badPairs (pyStrip (secret.getD ""))) =
      nonAsciiPre ++ renderBad ((badPairs (pyStrip (secret.getD ""))).take 10) ++
        nonAsciiPost ∧
    ((badPairs (pyStrip (secret.getD ""))).take 10).length =
      min 10 (badPairs (pyStrip (secret.getD ""))).length ∧
    (∀ secret2 : Option String,
      badPairs (pyStrip (secret2.getD "")) = badPairs (pyStrip (secret.getD "")) →
      call_ai_gate secret2 = .error (nonAsciiMsg (badPairs (pyStrip (secret.getD ""))))) := by
  have hgate : ∀ (s2 : Option String), pyStrip (s2.getD "") ≠ "" →
      badPairs (pyStrip (s2.getD "")) ≠ [] →
      call_ai_gate s2 = .error (nonAsciiMsg (badPairs (pyStrip (s2.getD "")))) := by
    intro s2 h1 h2
    cases hbp : badPairs (pyStrip (s2.getD "")) with
    | nil => exact absurd hbp h2
    | cons a l => simp [call_ai_gate, h1, hbp]
  have hk : pyStrip (secret.getD "") ≠ "" := by
    intro he
    rw [he] at h
    exact h rfl
  refine ⟨hgate secret hk h, rfl, ?_, ?_⟩
  · rw [List.length_take]
  · intro s2 hs2
    have h2 : badPairs (pyStrip (s2.getD "")) ≠ [] := by rw [hs2]; exact h
    have hk2 : pyStrip (s2.getD "") ≠ "" := by
      intro he
      rw [he] at h2
      exact h2 rfl
    rw [hgate s2 hk2 h2, hs2]

/-- Claim C10, witness: a credential with thirteen non-ASCII characters
fails with the non-ASCII message, and only ten pairs are rendered. -/
theorem C10_witness :
    badPairs (pyStrip ((some "ααααααααααααα").getD "")) ≠ [] ∧
    call_ai_gate (some "ααααααααααααα") =
      .error (nonAsciiMsg (badPairs "ααααααααααααα")) ∧
    ((badPairs "ααααααααααααα").take 10).length = 10 := by
  refine ⟨by decide, ?_, by decide⟩
  exact (C10_nonascii_message (some "ααααααααααααα") (by decide)).1

end Notice2Do
